import Mathlib

/-!
Shallow embedding of the core of the `financial-tool` repository:
the risk analyzer (`src/agents/analysis_agent.py`), the retrieval service
(`src/agents/retriever_agent.py`), the fetch agents (`src/agents/api_agent.py`,
`src/agents/scraping_agent.py`) and the pipeline coordinator
(`src/orchestrator/agent_coordinator.py`).

Modelling conventions, used throughout:
* Python floats are modelled by `ℚ` where the computations stay rational;
  `np.std` (an irrational square root) is modelled as `Real.sqrt` of the
  population variance, and the entropy-based diversification score as an
  `Option ℝ` whose `none` models the IEEE-754 `NaN` that `numpy` produces
  on a `0.0 / 0.0` division (numpy float division does not raise).
* Python dicts are modelled as association lists in insertion order; an
  update of an existing key keeps its position, a new key is appended,
  exactly as CPython dicts behave.
* A Python dict record that carries an `error` key is `StockRecord.failed`;
  any other record is `StockRecord.valid` with its optional fields.
* External collaborators (Gemini, yfinance, the scraper, the embedding
  model, gTTS) are oracles: each is a value or function producing
  `Except String _`, an `Except.error` modelling a raised exception.
* `faiss.IndexFlatL2.search` with `k` larger than the number of stored
  vectors fills the missing result slots with the id `-1` (documented FAISS
  behaviour for insufficient results); distances are exact squared L2.
-/

/-- One stock record's fetch-derived fields, as stored by
`APIAgent.fetch_stock_data`.  `none` models an absent key.  For
`pe_ratio` it also covers a key present with value `None`: its only use
site, `data.get('pe_ratio', 0)` followed by a truthiness test, cannot
tell the two apart.  For `current_price` and `market_cap` a present
`None` is deliberately **not** representable here: the source treats it
differently from an absent key (the `dict.get` defaults fire only for
absent keys), and such a value crashes `sum(market_caps)` /
`np.mean` in the analyzer with an uncaught `TypeError` — one more
failure that crosses the top-level boundary, recorded in the C1
amendment but outside this model's state space. -/
structure QuoteFields where
  current_price : Option ℚ
  company_name : Option String
  sector : Option String
  market_cap : Option ℚ
  pe_ratio : Option ℚ
  week52_high : Option ℚ
  week52_low : Option ℚ
  earnings_date : Option String
deriving DecidableEq

/-- A per-ticker entry of `stock_data`: either a dict with an `error` key
(as written by the two `except` blocks of `fetch_stock_data`) or a valid
record. -/
inductive StockRecord where
  | failed (error : String)
  | valid (fields : QuoteFields)
deriving DecidableEq

/-- The test `'error' not in data`, the validity test of `portfolio_risk_analysis`. -/
def StockRecord.isValid : StockRecord → Bool
  | StockRecord.failed _ => false
  | StockRecord.valid _ => true

/-- The fields of a valid record, `none` for a failed one. -/
def StockRecord.getFields : StockRecord → Option QuoteFields
  | StockRecord.failed _ => none
  | StockRecord.valid q => some q

/-- A scraped news article, as built by `crawl_financial_news`. -/
structure NewsItem where
  title : String
  link : String
  source : String
deriving DecidableEq

/-- Model of `np.mean` of a list of rationals (callers guard the empty case). -/
def npMean (l : List ℚ) : ℚ := l.sum / (l.length : ℚ)

/-- Population variance, the square of `np.std`.  The analyzer's
`*_std_dev` / `*_volatility` fields are `Real.sqrt` of this value. -/
def popVariance (l : List ℚ) : ℚ :=
  (l.map (fun x => (x - npMean l) ^ 2)).sum / (l.length : ℚ)

/-- Model of `np.std`: the square root of the population variance. -/
noncomputable def npStd (l : List ℚ) : ℝ := Real.sqrt ((popVariance l : ℚ) : ℝ)

/-- Python `min` over a nonempty list (`0` for `[]`, which the source
guards against). -/
def pyListMin : List ℚ → ℚ
  | [] => 0
  | x :: xs => xs.foldl min x

/-- Python `max` over a nonempty list (`0` for `[]`, which the source
guards against). -/
def pyListMax : List ℚ → ℚ
  | [] => 0
  | x :: xs => xs.foldl max x

/-- Model of `sector_distribution[sector] = sector_distribution.get(sector, 0) + 1`
on an insertion-ordered dict: an existing key is bumped in place, a new
key is appended with count 1. -/
def dictIncr (d : List (String × ℕ)) (key : String) : List (String × ℕ) :=
  if d.any (fun p => p.1 == key) then
    d.map (fun p => if p.1 == key then (p.1, p.2 + 1) else p)
  else d ++ [(key, 1)]

/-- The dict comprehension `{t: d for t, d in stock_data.items() if 'error' not in d}`. -/
def valid_stocks (stock_data : List (String × StockRecord)) : List (String × StockRecord) :=
  stock_data.filter (fun p => p.2.isValid)

/-- The fields of the valid records, in order: the records the
`for ticker, data in valid_stocks.items()` loop visits. -/
def valid_fields (stock_data : List (String × StockRecord)) : List QuoteFields :=
  stock_data.filterMap (fun p => p.2.getFields)

/-- The list `market_caps`: the loop appends `data.get('market_cap', 0)` for every
valid record. -/
def market_cap_inputs (stock_data : List (String × StockRecord)) : List ℚ :=
  (valid_fields stock_data).map (fun q => q.market_cap.getD 0)

/-- The list `prices`: the loop appends `data.get('current_price', 0)` for every
valid record. -/
def price_inputs (stock_data : List (String × StockRecord)) : List ℚ :=
  (valid_fields stock_data).map (fun q => q.current_price.getD 0)

/-- Model of `pe_ratio = data.get('pe_ratio', 0); if pe_ratio: pe_ratios.append(...)`:
an absent key (or `None` value) yields a falsy `0`/`None`, and a present
`0` is falsy too, so only present nonzero values survive. -/
def pe_contribution (q : QuoteFields) : Option ℚ :=
  match q.pe_ratio with
  | none => none
  | some x => if x = 0 then none else some x

/-- The list `pe_ratios`, the P/E values that pass the truthiness test. -/
def pe_inputs (stock_data : List (String × StockRecord)) : List ℚ :=
  (valid_fields stock_data).filterMap pe_contribution

/-- The dict `sector_distribution`, accumulated over the valid records with
`data.get('sector', 'Unknown')` as the key. -/
def sector_distribution_of (stock_data : List (String × StockRecord)) : List (String × ℕ) :=
  (valid_fields stock_data).foldl (fun d q => dictIncr d (q.sector.getD ("Unknown"))) []

/-- Result of `_classify_market_cap_distribution`. -/
structure MarketCapDist where
  large_cap_percentage : ℚ
  mid_cap_percentage : ℚ
  small_cap_percentage : ℚ
deriving DecidableEq

/-- Model of `_classify_market_cap_distribution`: tier counts against the
10,000,000,000 / 2,000,000,000 thresholds, reported as percentages of the
input length; all zero for an empty input. -/
def classify_market_cap_distribution (market_caps : List ℚ) : MarketCapDist :=
  if market_caps = [] then ⟨0, 0, 0⟩
  else
    let large_cap : ℕ := market_caps.countP (fun cap => decide (10000000000 ≤ cap))
    let mid_cap : ℕ := market_caps.countP (fun cap => decide (2000000000 ≤ cap ∧ cap < 10000000000))
    let small_cap : ℕ := market_caps.countP (fun cap => decide (cap < 2000000000))
    let total_stocks : ℚ := (market_caps.length : ℚ)
    ⟨(large_cap : ℚ) / total_stocks * 100,
     (mid_cap : ℚ) / total_stocks * 100,
     (small_cap : ℚ) / total_stocks * 100⟩

/-- Result of `_assess_valuation_health` (`pe_ratio_range` flattened into
its `min`/`max` components). -/
structure ValuationHealth where
  average_pe_ratio : ℚ
  pe_range_min : ℚ
  pe_range_max : ℚ
  valuation_status : String
deriving DecidableEq

/-- Model of `_assess_valuation_health`: mean P/E bucketed into the four statuses,
or the `Insufficient Data` placeholder for an empty input. -/
def assess_valuation_health (pe_ratios : List ℚ) : ValuationHealth :=
  if pe_ratios = [] then ⟨0, 0, 0, ("Insufficient Data")⟩
  else
    let avg_pe := npMean pe_ratios
    let valuation_status : String :=
      if avg_pe < 10 then ("Potentially Undervalued")
      else if avg_pe < 20 then ("Fairly Valued")
      else if avg_pe < 30 then ("Slightly Overvalued")
      else ("Overvalued")
    ⟨avg_pe, pyListMin pe_ratios, pyListMax pe_ratios, valuation_status⟩

/-- Result of `_analyze_sector_concentration`. -/
structure SectorConcentration where
  most_concentrated_sector : String
  most_concentrated_percentage : ℚ
  sector_percentages : List (String × ℚ)
deriving DecidableEq

/-- The `key=lambda x: x[1], reverse=True` ordering of Python's stable
`sorted`: descending by percentage, ties kept in dict order. -/
def descByPercentage (a b : String × ℚ) : Prop := b.2 ≤ a.2

instance : DecidableRel descByPercentage :=
  fun a b => inferInstanceAs (Decidable (b.2 ≤ a.2))

/-- Model of `_analyze_sector_concentration`: per-sector percentages and the top
sector of the descending sort (`N/A` / `0` on an empty distribution). -/
def analyze_sector_concentration (sector_distribution : List (String × ℕ)) : SectorConcentration :=
  let total_stocks : ℕ := (sector_distribution.map Prod.snd).sum
  let sector_percentages : List (String × ℚ) :=
    sector_distribution.map (fun p => (p.1, ((p.2 : ℚ) / (total_stocks : ℚ)) * 100))
  match sector_percentages.insertionSort descByPercentage with
  | [] => ⟨("N/A"), 0, sector_percentages⟩
  | top :: _ => ⟨top.1, top.2, sector_percentages⟩

open Classical in
/-- Model of `_calculate_diversification_score`.  The source computes
`sum(entropy_scores) / np.log(num_sectors) * 100` and clamps with
`min(max(_, 0), 100)`.  When the distribution has exactly one sector,
`np.log(1) = 0.0` and the entropy sum is the float `0.0`, so numpy
evaluates `0.0 / 0.0` to `NaN` (it does not raise), and Python's
`min`/`max` propagate that `NaN`; `none` models this.  The other two
branches of the zero-denominator case model `+inf` (clamped to `100` by
`min`) and `-inf` (clamped to `0` by `max`); they are unreachable for the
positive-count distributions the analyzer builds.  With zero sectors the
denominator is the literal `1` and the score is `0`. -/
noncomputable def calculate_diversification_score
    (sector_distribution : List (String × ℕ)) : Option ℝ :=
  let total_stocks : ℕ := (sector_distribution.map Prod.snd).sum
  let num_sectors : ℕ := sector_distribution.length
  let entropy_scores : List ℝ := sector_distribution.map (fun p =>
    -(((p.2 : ℝ) / (total_stocks : ℝ)) * Real.log ((p.2 : ℝ) / (total_stocks : ℝ))))
  let max_possible_entropy : ℝ :=
    if 0 < num_sectors then Real.log (num_sectors : ℝ) else 1
  if max_possible_entropy = 0 then
    if entropy_scores.sum = 0 then none
    else if 0 < entropy_scores.sum then some 100
    else some 0
  else some (min (max (entropy_scores.sum / max_possible_entropy * 100) 0) 100)

/-- Result of `_assess_portfolio_health`. -/
structure HealthIndicators where
  diversification_score : Option ℝ
  sector_concentration : SectorConcentration
  market_cap_distribution : MarketCapDist
  valuation_health : ValuationHealth

/-- Model of `_assess_portfolio_health`. -/
noncomputable def assess_portfolio_health (market_caps pe_ratios : List ℚ)
    (sector_distribution : List (String × ℕ)) : HealthIndicators :=
  ⟨calculate_diversification_score sector_distribution,
   analyze_sector_concentration sector_distribution,
   classify_market_cap_distribution market_caps,
   assess_valuation_health pe_ratios⟩

/-- The `risk_metrics` sub-dict of the analysis result. -/
structure RiskMetrics where
  total_market_cap : ℚ
  avg_market_cap : ℚ
  market_cap_std_dev : ℝ
  avg_price : ℚ
  price_volatility : ℝ
  avg_pe_ratio : ℚ
  pe_ratio_volatility : ℝ
  sector_distribution : List (String × ℕ)

/-- The full result dict of `portfolio_risk_analysis`. -/
structure AnalysisResults where
  total_stocks : ℕ
  risk_metrics : RiskMetrics
  portfolio_health_indicators : HealthIndicators

/-- Model of `AnalysisAgent.portfolio_risk_analysis`: filters out error entries,
collects market caps / prices / truthy P/E ratios / sector counts from the
valid records, and assembles the aggregate metrics and health indicators. -/
noncomputable def portfolio_risk_analysis
    (stock_data : List (String × StockRecord)) : AnalysisResults :=
  let market_caps := market_cap_inputs stock_data
  let prices := price_inputs stock_data
  let pe_ratios := pe_inputs stock_data
  let sector_distribution := sector_distribution_of stock_data
  { total_stocks := (valid_stocks stock_data).length
    risk_metrics :=
      { total_market_cap := market_caps.sum
        avg_market_cap := if market_caps = [] then 0 else npMean market_caps
        market_cap_std_dev := if 1 < market_caps.length then npStd market_caps else 0
        avg_price := if prices = [] then 0 else npMean prices
        price_volatility := if 1 < prices.length then npStd prices else 0
        avg_pe_ratio := if pe_ratios = [] then 0 else npMean pe_ratios
        pe_ratio_volatility := if 1 < pe_ratios.length then npStd pe_ratios else 0
        sector_distribution := sector_distribution }
    portfolio_health_indicators :=
      assess_portfolio_health market_caps pe_ratios sector_distribution }

/-- The documents `RetrieverAgent` distinguishes by key membership:
`stockDict` is a value of `stock_data` (the dicts built by
`fetch_stock_data` carry neither a `ticker` nor a `title` key, so neither
branch of `_document_to_text` fires on them); `tickeredStock` is a dict
with a `ticker` key; `news` is a dict with a `title` key. -/
inductive Doc where
  | stockDict (record : StockRecord)
  | tickeredStock (ticker : String) (company_name : Option String)
      (sector : Option String) (current_price : Option String)
  | news (item : NewsItem)
deriving DecidableEq

/-- Python `" ".join`. -/
def joinSpace : List String → String
  | [] => ("")
  | [s] => s
  | s :: rest => s ++ (" ") ++ joinSpace rest

/-- Model of `RetrieverAgent._document_to_text`: the `ticker` branch, the `title`
branch, or the empty fallback; parts are kept only if truthy (nonempty). -/
def document_to_text (doc : Doc) : String :=
  match doc with
  | Doc.stockDict _ => ("")
  | Doc.tickeredStock t c s p =>
      joinSpace (([("Ticker: ") ++ t,
                   ("Company: ") ++ c.getD (""),
                   ("Sector: ") ++ s.getD (""),
                   ("Current Price: ") ++ p.getD ("")]).filter
        (fun part => part ≠ ("")))
  | Doc.news item =>
      joinSpace (([item.title, item.link]).filter (fun part => part ≠ ("")))

/-- Failures that can cross a stage of the pipeline: an exception raised
by an external collaborator (e.g. the embedding model), the `IndexError`
of `np.array([]).shape[1]` on an empty document batch, the `ValueError`
of `semantic_search` before any `index_documents` call, and the
`ValueError` raised while formatting the narrative prompt (the `N/A`
default for a missing `market_cap` does not support the thousands
separator of `f"{...:,}"`). -/
inductive PipeError where
  | collaborator (msg : String)
  | indexError
  | notBuilt
  | formatError
deriving DecidableEq

/-- The embedding loop of `index_documents`: one
`embedding_model.encode` call per document, the first raised exception
escaping the whole loop. -/
def embed_all (embed : String → Except String (List ℚ)) : List Doc → Except PipeError (List (List ℚ))
  | [] => Except.ok []
  | d :: ds =>
      match embed (document_to_text d) with
      | Except.error e => Except.error (PipeError.collaborator e)
      | Except.ok v =>
          match embed_all embed ds with
          | Except.error e => Except.error e
          | Except.ok vs => Except.ok (v :: vs)

/-- The retriever's mutable state: the document store and, once built,
the vectors held by the FAISS index (`none` models `faiss_index is None`). -/
structure RetrieverState where
  document_store : List Doc
  faiss_vectors : Option (List (List ℚ))
deriving DecidableEq

/-- Model of `RetrieverAgent.index_documents`: embeds every document (no document
is discarded), stores them all, and builds a fresh flat L2 index.  On an
empty batch `np.array([]).astype('float32')` is one-dimensional and
`embeddings_array.shape[1]` raises `IndexError`. -/
def index_documents (embed : String → Except String (List ℚ))
    (documents : List Doc) : Except PipeError RetrieverState :=
  match embed_all embed documents with
  | Except.error e => Except.error e
  | Except.ok embeddings =>
      if embeddings.length = 0 then Except.error PipeError.indexError
      else Except.ok ⟨documents, some embeddings⟩

/-- Exact squared Euclidean distance, the metric of `faiss.IndexFlatL2`. -/
def sqL2 (u v : List ℚ) : ℚ := ((u.zipWith (fun a b => (a - b) ^ 2) v)).sum

/-- Ranking by ascending distance with ties in insertion order (FAISS flat
search is exact and deterministic). -/
def ascByDistance (a b : ℕ × ℚ) : Prop := a.2 ≤ b.2

instance : DecidableRel ascByDistance :=
  fun a b => inferInstanceAs (Decidable (a.2 ≤ b.2))

instance : IsTotal (ℕ × ℚ) ascByDistance := ⟨fun a b => le_total a.2 b.2⟩

instance : IsTrans (ℕ × ℚ) ascByDistance := ⟨fun _ _ _ h h2 => le_trans h h2⟩

/-- The stored vectors paired with their ids, sorted ascending by the
given per-id distances (stable). -/
def ranked_pairs (distances : List ℚ) : List (ℕ × ℚ) :=
  (distances.enum).insertionSort ascByDistance

/-- The ids in ranked order. -/
def ranked_ids (distances : List ℚ) : List ℕ :=
  (ranked_pairs distances).map Prod.fst

/-- The id row `indices[0]` of `faiss_index.search(query, k)`: the `k`
best ids ascending by distance; when fewer than `k` vectors are stored,
FAISS fills the remaining slots with `-1`. -/
def faiss_search_ids (distances : List ℚ) (k : ℕ) : List ℤ :=
  ((ranked_ids distances).take k).map Int.ofNat
    ++ List.replicate (k - distances.length) (-1)

/-- Python list indexing: a negative index counts from the end.  (Only the
FAISS placeholder `-1` reaches the negative case in this pipeline.) -/
def pyGet (l : List Doc) (i : ℤ) : Option Doc :=
  if 0 ≤ i then l.get? i.toNat else l.get? ((l.length : ℤ) + i).toNat

/-- Model of `RetrieverAgent.semantic_search`: raises `ValueError` when no index
was ever built; otherwise embeds the query, runs the FAISS search, and
keeps `document_store[idx]` for every returned id with
`idx < len(document_store)` (a check that does not exclude `-1`). -/
def semantic_search (st : RetrieverState) (embed : String → Except String (List ℚ))
    (query : String) (top_k : ℕ) : Except PipeError (List Doc) :=
  match st.faiss_vectors with
  | none => Except.error PipeError.notBuilt
  | some vecs =>
      match embed query with
      | Except.error e => Except.error (PipeError.collaborator e)
      | Except.ok query_embedding =>
          let distances := vecs.map (fun v => sqL2 query_embedding v)
          let indices := faiss_search_ids distances top_k
          Except.ok (indices.filterMap (fun idx =>
            if idx < (st.document_store.length : ℤ) then pyGet st.document_store idx
            else none))

/-- Model of `RetrieverAgent.combine_document_sources`: concatenation in encounter
order. -/
def combine_document_sources (sources : List (List Doc)) : List Doc :=
  sources.foldl (fun combined s => combined ++ s) []

/-- Characterwise model of Python `str.strip` (whitespace from both ends). -/
def stripChars (cs : List Char) : List Char :=
  ((cs.dropWhile Char.isWhitespace).reverse.dropWhile Char.isWhitespace).reverse

/-- Python `str.strip()`. -/
def pyStrip (s : String) : String := ⟨stripChars s.data⟩

/-- Python `str.upper()` (ASCII suffices for ticker symbols). -/
def pyUpper (s : String) : String := ⟨s.data.map Char.toUpper⟩

/-- Characterwise model of Python `str.split(sep)` for a one-character
separator: it always yields at least one piece, in particular
`"".split(",") == [""]`. -/
def splitChars (sep : Char) : List Char → List (List Char)
  | [] => [[]]
  | c :: cs =>
      match splitChars sep cs with
      | [] => [[]]
      | cur :: rest => if c = sep then [] :: cur :: rest else (c :: cur) :: rest

/-- Python `str.split(",")`. -/
def pySplitComma (s : String) : List String := (splitChars (',') s.data).map (fun cs => ⟨cs⟩)

/-- The fixed fallback ticker set of `_extract_tickers_with_gemini`. -/
def fallback_tickers : List String := [("AAPL"), ("GOOGL"), ("MSFT"), ("AMZN")]

/-- Model of `AgentCoordinator._extract_tickers_with_gemini`: on a raised
collaborator error, return the fallback set; otherwise strip the response,
split on commas, strip-and-uppercase each piece, and return the fallback
only if the resulting list is empty (which `str.split` never produces). -/
def extract_tickers_with_gemini (response : Except String String) : List String :=
  match response with
  | Except.error _ => fallback_tickers
  | Except.ok text =>
      let tickers_str := pyStrip text
      let tickers := (pySplitComma tickers_str).map (fun t => pyUpper (pyStrip t))
      if tickers = [] then fallback_tickers else tickers

/-- Model of `d[key] = value` on an insertion-ordered dict. -/
def dict_insert (key : String) (value : α) (d : List (String × α)) : List (String × α) :=
  if d.any (fun p => p.1 == key) then
    d.map (fun p => if p.1 == key then (p.1, value) else p)
  else d ++ [(key, value)]

/-- Model of `APIAgent.fetch_stock_data`: when the batch download raises, every
ticker gets the `Batch fetch failed` error record; otherwise each ticker
gets either its fetched fields or an error record with the exception's
message, one dict entry per distinct ticker. -/
def fetch_stock_data (batch_ok : Bool) (quote : String → Except String QuoteFields)
    (tickers : List String) : List (String × StockRecord) :=
  if batch_ok then
    tickers.foldl (fun d t =>
      dict_insert t
        (match quote t with
         | Except.ok fields => StockRecord.valid fields
         | Except.error e => StockRecord.failed e) d) []
  else
    tickers.foldl (fun d t => dict_insert t (StockRecord.failed ("Batch fetch failed")) d) []

/-- Model of `ScrapingAgent.crawl_financial_news`: one entry per distinct ticker,
an empty article list when scraping that ticker raises.  (The inner
`async` helpers contain no `await`, so `asyncio.gather` runs them in
ticker order and the dict insertion order is deterministic.) -/
def crawl_financial_news (news : String → Except String (List NewsItem))
    (tickers : List String) : List (String × List NewsItem) :=
  tickers.foldl (fun d t =>
    dict_insert t
      (match news t with
       | Except.ok items => items
       | Except.error _ => ([] : List NewsItem)) d) []

/-- Model of `Except.isOk` of the standard library. -/
def exceptOk : Except ε α → Bool
  | Except.ok _ => true
  | Except.error _ => false

/-- Whether the `stocks_summary` prompt preparation at the start of
`_generate_narrative_with_gemini` raises.  It runs **outside** that
method's `try` block and formats
`data.get('market_cap', 'N/A')` with the thousands separator `,` for
every record without an error marker; when the key is absent the
default string `N/A` does not support numeric formatting and the
f-string raises `ValueError`, which nothing in `process_query`
catches. -/
def stocks_summary_raises (stock_data : List (String × StockRecord)) : Bool :=
  (valid_stocks stock_data).any (fun p =>
    match p.2 with
    | StockRecord.valid q => q.market_cap.isNone
    | StockRecord.failed _ => false)

/-- The external collaborators one `process_query` run talks to, each as
an oracle fixing what its calls return (or raise) during that run.
The embedding oracle models the `SentenceTransformer` collaborator,
whose successful results share one model-defined dimension (the
`EmbeddingVector` contract of the specification). -/
structure Collaborators where
  gemini_extract : Except String String
  batch_ok : Bool
  quote : String → Except String QuoteFields
  news : String → Except String (List NewsItem)
  embed : String → Except String (List ℚ)
  narrate : Except String String
  tts : Except String String

/-- Every embedding call of the run succeeds. -/
def embed_total (c : Collaborators) : Prop :=
  ∀ s : String, exceptOk (c.embed s) = true

/-- Every valid record the quote oracle can deliver carries a
`market_cap` value (the state in which the narrative prompt preparation
cannot raise). -/
def quotes_have_market_cap (c : Collaborators) : Prop :=
  ∀ (t : String) (q : QuoteFields), c.quote t = Except.ok q → q.market_cap.isSome = true

/-- The dict returned by `AgentCoordinator.process_query`. -/
structure QueryResult where
  stock_data : List (String × StockRecord)
  news_data : List (String × List NewsItem)
  risk_analysis : AnalysisResults
  narrative_response : String
  voice_response : Option String

/-- Model of `AgentCoordinator.process_query`: resolve tickers (failure ⇒ fallback
set), fetch quotes and news (per-ticker failures captured in the data),
merge stock-record dicts and flattened news into one document list, index
it, run one semantic search with `top_k = 3`, analyze the portfolio,
generate the narrative (failure ⇒ fixed apology string) and the voice
artifact (failure ⇒ `None`).  Two kinds of error escape as the
`Except.error` of the returned value: the indexing and search steps have
no `try`/`except` in the source, and the narrative prompt preparation —
which runs before and outside the `try` around the Gemini call — raises
`ValueError` when a valid record has no `market_cap` key (see
`stocks_summary_raises`). -/
noncomputable def process_query (c : Collaborators) (query : String) :
    Except PipeError QueryResult :=
  let tickers := extract_tickers_with_gemini c.gemini_extract
  let stock_data := fetch_stock_data c.batch_ok c.quote tickers
  let news_data := crawl_financial_news c.news tickers
  let combined_docs := combine_document_sources
    [stock_data.map (fun p => Doc.stockDict p.2),
     ((news_data.map Prod.snd).flatten).map Doc.news]
  match index_documents c.embed combined_docs with
  | Except.error e => Except.error e
  | Except.ok st =>
      match semantic_search st c.embed query 3 with
      | Except.error e => Except.error e
      | Except.ok _contextual_results =>
          if stocks_summary_raises stock_data then Except.error PipeError.formatError
          else
            Except.ok
              { stock_data := stock_data
                news_data := news_data
                risk_analysis := portfolio_risk_analysis stock_data
                narrative_response :=
                  match c.narrate with
                  | Except.ok t => t
                  | Except.error _ => ("Unable to generate market brief at this time.")
                voice_response :=
                  match c.tts with
                  | Except.ok p => some p
                  | Except.error _ => none }

instance {ε α : Type} [DecidableEq ε] [DecidableEq α] : DecidableEq (Except ε α) := fun x y =>
  match x, y with
  | Except.ok a, Except.ok b => decidable_of_iff (a = b) (by simp)
  | Except.ok _, Except.error _ => isFalse (by simp)
  | Except.error _, Except.ok _ => isFalse (by simp)
  | Except.error e, Except.error f => decidable_of_iff (e = f) (by simp)

/-- The quote record of the spec's end-to-end scenario for `AAPL`. -/
def demo_fields : QuoteFields :=
  ⟨some 150, some ("Apple Inc."), some ("Technology"), some 2500000000000,
   some 28, none, none, none⟩

/-- A one-stock, one-sector batch. -/
def demo_batch : List (String × StockRecord) :=
  [(("AAPL"), StockRecord.valid demo_fields)]

/-- A batch whose only record is a failed fetch. -/
def failed_batch : List (String × StockRecord) :=
  [(("XYZ"), StockRecord.failed ("network error"))]

/-- A valid record with every optional field missing. -/
def blank_fields : QuoteFields := ⟨none, none, none, none, none, none, none, none⟩

/-- An embedding oracle that always succeeds with a 1-dimensional vector. -/
def ok_embed : String → Except String (List ℚ) := fun _ => Except.ok [0]

/-- A `stock_data` value for a failed fetch, as the coordinator hands it
to the retriever: it has neither a `ticker` nor a `title` key, so its
search text is empty. -/
def error_doc : Doc := Doc.stockDict (StockRecord.failed ("network error"))

def ok_collaborators : Collaborators :=
  ⟨Except.ok ("AAPL"), true, fun _ => Except.ok demo_fields, fun _ => Except.ok [],
   fun _ => Except.ok [0], Except.ok ("Market brief."), Except.error ("tts unavailable")⟩

def embed_down_collaborators : Collaborators :=
  { ok_collaborators with embed := fun _ => Except.error ("embedding backend unavailable") }

lemma valid_fields_nil : valid_fields [] = [] := rfl

lemma valid_fields_append (a b : List (String × StockRecord)) :
    valid_fields (a ++ b) = valid_fields a ++ valid_fields b := by
  simp [valid_fields]

lemma valid_fields_failed_cons (t msg : String) (l : List (String × StockRecord)) :
    valid_fields ((t, StockRecord.failed msg) :: l) = valid_fields l := by
  simp [valid_fields, StockRecord.getFields]

lemma valid_fields_valid_cons (t : String) (q : QuoteFields) (l : List (String × StockRecord)) :
    valid_fields ((t, StockRecord.valid q) :: l) = q :: valid_fields l := by
  simp [valid_fields, StockRecord.getFields]

lemma length_valid_fields (sd : List (String × StockRecord)) :
    (valid_fields sd).length = (valid_stocks sd).length := by
  induction sd with
  | nil => rfl
  | cons p l ih =>
      obtain ⟨t, r⟩ := p
      cases r <;>
        simpa [valid_fields, valid_stocks, StockRecord.getFields, StockRecord.isValid] using ih

/-- C7: failed records contribute to no output of the risk analysis — the
analysis of a batch containing a failed record is identical to the
analysis of the batch with that record removed — and `total_stocks`
counts exactly the records without an error marker. -/
theorem c7_failed_records_excluded
    (pre post : List (String × StockRecord)) (t msg : String)
    (sd : List (String × StockRecord)) :
    portfolio_risk_analysis (pre ++ (t, StockRecord.failed msg) :: post)
        = portfolio_risk_analysis (pre ++ post)
      ∧ (portfolio_risk_analysis sd).total_stocks
        = sd.countP (fun p => p.2.isValid) := by
  constructor
  · have h1 : valid_fields (pre ++ (t, StockRecord.failed msg) :: post)
        = valid_fields (pre ++ post) := by
      simp [valid_fields_append, valid_fields_failed_cons]
    have h2 : valid_stocks (pre ++ (t, StockRecord.failed msg) :: post)
        = valid_stocks (pre ++ post) := by
      simp [valid_stocks, StockRecord.isValid]
    simp only [portfolio_risk_analysis, market_cap_inputs, price_inputs, pe_inputs,
      sector_distribution_of, h1, h2]
  · simp [portfolio_risk_analysis, valid_stocks, List.countP_eq_length_filter]

/-- C9: a valid record whose `pe_ratio` is present but `0` is treated by
the whole analysis exactly as if the field were absent — every output of
`portfolio_risk_analysis` (P/E average, volatility, range, valuation
status, and everything else) is identical for the two batches. -/
theorem c9_zero_pe_ratio_is_excluded
    (pre post : List (String × StockRecord)) (t : String) (q : QuoteFields) :
    portfolio_risk_analysis
        (pre ++ (t, StockRecord.valid { q with pe_ratio := some 0 }) :: post)
      = portfolio_risk_analysis
        (pre ++ (t, StockRecord.valid { q with pe_ratio := none }) :: post) := by
  have hmc : market_cap_inputs
        (pre ++ (t, StockRecord.valid { q with pe_ratio := some 0 }) :: post)
      = market_cap_inputs
        (pre ++ (t, StockRecord.valid { q with pe_ratio := none }) :: post) := by
    simp [market_cap_inputs, valid_fields_append, valid_fields_valid_cons]
  have hpr : price_inputs
        (pre ++ (t, StockRecord.valid { q with pe_ratio := some 0 }) :: post)
      = price_inputs
        (pre ++ (t, StockRecord.valid { q with pe_ratio := none }) :: post) := by
    simp [price_inputs, valid_fields_append, valid_fields_valid_cons]
  have hpe : pe_inputs
        (pre ++ (t, StockRecord.valid { q with pe_ratio := some 0 }) :: post)
      = pe_inputs
        (pre ++ (t, StockRecord.valid { q with pe_ratio := none }) :: post) := by
    simp [pe_inputs, valid_fields_append, valid_fields_valid_cons, pe_contribution]
  have hsec : sector_distribution_of
        (pre ++ (t, StockRecord.valid { q with pe_ratio := some 0 }) :: post)
      = sector_distribution_of
        (pre ++ (t, StockRecord.valid { q with pe_ratio := none }) :: post) := by
    simp [sector_distribution_of, valid_fields_append, valid_fields_valid_cons,
      List.foldl_append]
  have hvs : (valid_stocks
        (pre ++ (t, StockRecord.valid { q with pe_ratio := some 0 }) :: post)).length
      = (valid_stocks
        (pre ++ (t, StockRecord.valid { q with pe_ratio := none }) :: post)).length := by
    simp [valid_stocks, StockRecord.isValid]
  simp only [portfolio_risk_analysis, hmc, hpr, hpe, hsec, hvs]

lemma avg_price_eq (sd : List (String × StockRecord)) :
    (portfolio_risk_analysis sd).risk_metrics.avg_price
      = if price_inputs sd = [] then 0 else npMean (price_inputs sd) := rfl

/-- C10: a valid record whose `current_price` and `market_cap` are absent
is not skipped — it contributes a literal `0` to the price and market-cap
collections (and hence to every statistic computed from them), it lands in
the small-cap tier count, and appending it strictly lowers a positive
average price. -/
theorem c10_missing_fields_counted_as_zero
    (sd : List (String × StockRecord)) (t : String) (q : QuoteFields)
    (hp : q.current_price = none) (hm : q.market_cap = none)
    (hpos : 0 < (portfolio_risk_analysis sd).risk_metrics.avg_price) :
    price_inputs (sd ++ [(t, StockRecord.valid q)]) = price_inputs sd ++ [0]
    ∧ market_cap_inputs (sd ++ [(t, StockRecord.valid q)]) = market_cap_inputs sd ++ [0]
    ∧ (portfolio_risk_analysis (sd ++ [(t, StockRecord.valid q)])).risk_metrics.avg_price
        = (price_inputs sd).sum / (((price_inputs sd).length : ℚ) + 1)
    ∧ (market_cap_inputs (sd ++ [(t, StockRecord.valid q)])).countP
          (fun cap => decide (cap < 2000000000))
        = (market_cap_inputs sd).countP (fun cap => decide (cap < 2000000000)) + 1
    ∧ (portfolio_risk_analysis (sd ++ [(t, StockRecord.valid q)])).risk_metrics.avg_price
        < (portfolio_risk_analysis sd).risk_metrics.avg_price := by
  have h1 : price_inputs (sd ++ [(t, StockRecord.valid q)]) = price_inputs sd ++ [0] := by
    simp [price_inputs, valid_fields_append, valid_fields_valid_cons, valid_fields_nil, hp]
  have h2 : market_cap_inputs (sd ++ [(t, StockRecord.valid q)])
      = market_cap_inputs sd ++ [0] := by
    simp [market_cap_inputs, valid_fields_append, valid_fields_valid_cons, valid_fields_nil, hm]
  have hne : price_inputs sd ≠ [] := by
    intro h0
    rw [avg_price_eq, if_pos h0] at hpos
    exact lt_irrefl 0 hpos
  have hnlen : (0 : ℚ) < ((price_inputs sd).length : ℚ) := by
    have : 0 < (price_inputs sd).length := List.length_pos.mpr hne
    exact_mod_cast this
  have hmean : 0 < (price_inputs sd).sum / ((price_inputs sd).length : ℚ) := by
    rw [avg_price_eq, if_neg hne] at hpos
    exact hpos
  have hsum : 0 < (price_inputs sd).sum := by
    rcases div_pos_iff.mp hmean with ⟨hs, _⟩ | ⟨_, hn⟩
    · exact hs
    · exact absurd hn (not_lt.mpr (le_of_lt hnlen))
  have havg : (portfolio_risk_analysis (sd ++ [(t, StockRecord.valid q)])).risk_metrics.avg_price
      = (price_inputs sd).sum / (((price_inputs sd).length : ℚ) + 1) := by
    rw [avg_price_eq, h1, if_neg (by simp), npMean]
    simp
  refine ⟨h1, h2, havg, ?_, ?_⟩
  · rw [h2, List.countP_append]
    norm_num
  · rw [havg, avg_price_eq, if_neg hne, npMean]
    exact div_lt_div_of_pos_left hsum hnlen (by linarith)

theorem c10_missing_fields_counted_as_zero_witness :
    blank_fields.current_price = none
    ∧ blank_fields.market_cap = none
    ∧ 0 < (portfolio_risk_analysis demo_batch).risk_metrics.avg_price
    ∧ (price_inputs (demo_batch ++ [(("MISS"), StockRecord.valid blank_fields)])
          = price_inputs demo_batch ++ [0]
      ∧ market_cap_inputs (demo_batch ++ [(("MISS"), StockRecord.valid blank_fields)])
          = market_cap_inputs demo_batch ++ [0]
      ∧ (portfolio_risk_analysis
            (demo_batch ++ [(("MISS"), StockRecord.valid blank_fields)])).risk_metrics.avg_price
          = (price_inputs demo_batch).sum / (((price_inputs demo_batch).length : ℚ) + 1)
      ∧ (market_cap_inputs (demo_batch ++ [(("MISS"), StockRecord.valid blank_fields)])).countP
            (fun cap => decide (cap < 2000000000))
          = (market_cap_inputs demo_batch).countP (fun cap => decide (cap < 2000000000)) + 1
      ∧ (portfolio_risk_analysis
            (demo_batch ++ [(("MISS"), StockRecord.valid blank_fields)])).risk_metrics.avg_price
          < (portfolio_risk_analysis demo_batch).risk_metrics.avg_price) :=
  ⟨rfl, rfl,
   by rw [avg_price_eq]
      have h : price_inputs demo_batch = [150] := by decide
      rw [h]
      norm_num [npMean],
   c10_missing_fields_counted_as_zero demo_batch ("MISS") blank_fields rfl rfl
     (by rw [avg_price_eq]
         have h : price_inputs demo_batch = [150] := by decide
         rw [h]
         norm_num [npMean])⟩

lemma tier_counts_partition (l : List ℚ) :
    l.countP (fun cap => decide (10000000000 ≤ cap))
      + l.countP (fun cap => decide (2000000000 ≤ cap ∧ cap < 10000000000))
      + l.countP (fun cap => decide (cap < 2000000000)) = l.length := by
  induction l with
  | nil => rfl
  | cons x xs ih =>
      rw [List.countP_cons, List.countP_cons, List.countP_cons, List.length_cons]
      have r0 : (if (false = true) then (1 : ℕ) else 0) = 0 := rfl
      have r1 : (if (true = true) then (1 : ℕ) else 0) = 1 := rfl
      rcases lt_or_le x (2000000000 : ℚ) with h | h
      · have e1 : decide ((10000000000 : ℚ) ≤ x) = false :=
          decide_eq_false (by linarith)
        have e2 : decide ((2000000000 : ℚ) ≤ x ∧ x < 10000000000) = false :=
          decide_eq_false (fun hc => by linarith [hc.1])
        have e3 : decide (x < (2000000000 : ℚ)) = true := decide_eq_true h
        rw [e1, e2, e3]
        simp only [r0, r1, if_true]
        omega
      · rcases lt_or_le x (10000000000 : ℚ) with h4 | h4
        · have e1 : decide ((10000000000 : ℚ) ≤ x) = false :=
            decide_eq_false (by linarith)
          have e2 : decide ((2000000000 : ℚ) ≤ x ∧ x < 10000000000) = true :=
            decide_eq_true ⟨h, h4⟩
          have e3 : decide (x < (2000000000 : ℚ)) = false :=
            decide_eq_false (by linarith)
          rw [e1, e2, e3]
          simp only [r0, r1, if_true]
          omega
        · have e1 : decide ((10000000000 : ℚ) ≤ x) = true := decide_eq_true h4
          have e2 : decide ((2000000000 : ℚ) ≤ x ∧ x < 10000000000) = false :=
            decide_eq_false (fun hc => by linarith [hc.2])
          have e3 : decide (x < (2000000000 : ℚ)) = false :=
            decide_eq_false (by linarith)
          rw [e1, e2, e3]
          simp only [r0, r1, if_true]
          omega

lemma classify_percentages_sum (l : List ℚ) (h : l ≠ []) :
    (classify_market_cap_distribution l).large_cap_percentage
      + (classify_market_cap_distribution l).mid_cap_percentage
      + (classify_market_cap_distribution l).small_cap_percentage = 100 := by
  have hsum := tier_counts_partition l
  simp only [classify_market_cap_distribution, if_neg h]
  set L := l.countP (fun cap => decide (10000000000 ≤ cap)) with hL
  set M := l.countP (fun cap => decide (2000000000 ≤ cap ∧ cap < 10000000000)) with hM
  set S := l.countP (fun cap => decide (cap < 2000000000)) with hS
  have hn : (0 : ℚ) < (l.length : ℚ) := by
    have : 0 < l.length := List.length_pos.mpr h
    exact_mod_cast this
  have hc : ((L : ℚ) + M + S) = (l.length : ℚ) := by exact_mod_cast hsum
  field_simp
  linarith

lemma market_cap_distribution_eq (sd : List (String × StockRecord)) :
    (portfolio_risk_analysis sd).portfolio_health_indicators.market_cap_distribution
      = classify_market_cap_distribution (market_cap_inputs sd) := rfl

lemma length_market_cap_inputs (sd : List (String × StockRecord)) :
    (market_cap_inputs sd).length = (valid_stocks sd).length := by
  rw [market_cap_inputs, List.length_map, length_valid_fields]

/-- C8: the three market-cap tier percentages of the analyzer sum to
exactly 100 whenever at least one valid quote exists, and are all 0 when
no valid quote exists. -/
theorem c8_tier_percentages_sum
    (sd : List (String × StockRecord)) :
    (0 < (valid_stocks sd).length →
      (portfolio_risk_analysis sd).portfolio_health_indicators.market_cap_distribution.large_cap_percentage
        + (portfolio_risk_analysis sd).portfolio_health_indicators.market_cap_distribution.mid_cap_percentage
        + (portfolio_risk_analysis sd).portfolio_health_indicators.market_cap_distribution.small_cap_percentage
        = 100)
    ∧ ((valid_stocks sd).length = 0 →
      (portfolio_risk_analysis sd).portfolio_health_indicators.market_cap_distribution.large_cap_percentage = 0
      ∧ (portfolio_risk_analysis sd).portfolio_health_indicators.market_cap_distribution.mid_cap_percentage = 0
      ∧ (portfolio_risk_analysis sd).portfolio_health_indicators.market_cap_distribution.small_cap_percentage = 0) := by
  constructor
  · intro hpos
    have hne : market_cap_inputs sd ≠ [] := by
      intro h0
      rw [← length_market_cap_inputs, h0] at hpos
      exact absurd hpos (by simp)
    rw [market_cap_distribution_eq]
    exact classify_percentages_sum (market_cap_inputs sd) hne
  · intro hzero
    have h0 : market_cap_inputs sd = [] := by
      rw [← List.length_eq_zero, length_market_cap_inputs, hzero]
    simp [market_cap_distribution_eq, classify_market_cap_distribution, h0]

theorem c8_tier_percentages_sum_witness :
    (0 < (valid_stocks demo_batch).length
      ∧ (portfolio_risk_analysis demo_batch).portfolio_health_indicators.market_cap_distribution.large_cap_percentage
        + (portfolio_risk_analysis demo_batch).portfolio_health_indicators.market_cap_distribution.mid_cap_percentage
        + (portfolio_risk_analysis demo_batch).portfolio_health_indicators.market_cap_distribution.small_cap_percentage
        = 100)
    ∧ ((valid_stocks failed_batch).length = 0
      ∧ (portfolio_risk_analysis failed_batch).portfolio_health_indicators.market_cap_distribution.large_cap_percentage = 0
      ∧ (portfolio_risk_analysis failed_batch).portfolio_health_indicators.market_cap_distribution.mid_cap_percentage = 0
      ∧ (portfolio_risk_analysis failed_batch).portfolio_health_indicators.market_cap_distribution.small_cap_percentage = 0) :=
  ⟨⟨by decide, (c8_tier_percentages_sum demo_batch).1 (by decide)⟩,
   ⟨by decide, (c8_tier_percentages_sum failed_batch).2 (by decide)⟩⟩

/-- C4 (code evaluated at the failing input): for the single-sector
portfolio of the spec's own end-to-end scenario — one valid `AAPL` record
with sector `Technology` — the analyzer's diversification score is the
`NaN` produced by `0.0 / np.log(1)`, not the `0` the specification
promises (and not a value of `[0, 100]`). -/
theorem c4_single_sector_score_is_nan :
    (portfolio_risk_analysis demo_batch).portfolio_health_indicators.diversification_score
      = none := by
  show calculate_diversification_score (sector_distribution_of demo_batch) = none
  have h : sector_distribution_of demo_batch = [(("Technology"), 1)] := by decide
  rw [h]
  simp [calculate_diversification_score, Real.log_one]

/-- C6 (code evaluated at the failing input): when the ticker-extraction
collaborator returns an empty text, `str.split(",")` yields `[""]`, which
is truthy as a list, so the coordinator returns the single empty-string
ticker instead of the fallback set; the fallback is substituted only when
the collaborator raises. -/
theorem c6_empty_extraction_result_skips_fallback :
    extract_tickers_with_gemini (Except.ok ("")) = [("")]
    ∧ extract_tickers_with_gemini (Except.error ("429 quota exceeded")) = fallback_tickers := by
  constructor <;> rfl

/-- C5 counterexample: for the duplicated ticker list `[AAPL, AAPL]` of
length 2, the fetch stage produces dicts with a single entry, not two
QuoteRecords and two news lists. -/
theorem c5_counterexample_duplicate_tickers :
    (fetch_stock_data true (fun _ => Except.ok demo_fields) [("AAPL"), ("AAPL")]).length = 1
    ∧ (crawl_financial_news (fun _ => Except.ok []) [("AAPL"), ("AAPL")]).length = 1
    ∧ ([("AAPL"), ("AAPL")] : List String).length = 2 := by
  refine ⟨?_, ?_, rfl⟩ <;> rfl

lemma dict_insert_keys_fresh {α : Type} (key : String) (value : α)
    (d : List (String × α)) (h : ∀ p ∈ d, p.1 ≠ key) :
    dict_insert key value d = d ++ [(key, value)] := by
  rw [dict_insert, if_neg]
  intro hany
  rcases List.any_eq_true.mp hany with ⟨p, hp, hk⟩
  exact h p hp (by simpa using hk)

lemma foldl_dict_insert_keys {α : Type} (f : String → α) :
    ∀ (l : List String) (acc : List (String × α)), l.Nodup →
      (∀ t ∈ l, ∀ p ∈ acc, p.1 ≠ t) →
      (l.foldl (fun d t => dict_insert t (f t) d) acc).map Prod.fst
        = acc.map Prod.fst ++ l
  | [], acc, _, _ => by simp
  | t :: ts, acc, hnd, hfresh => by
      have hnd' := (List.nodup_cons.mp hnd).2
      have htnotin := (List.nodup_cons.mp hnd).1
      rw [List.foldl_cons,
        dict_insert_keys_fresh t (f t) acc (fun p hp => hfresh t (by simp) p hp)]
      rw [foldl_dict_insert_keys f ts (acc ++ [(t, f t)]) hnd' ?_]
      · simp
      · intro u hu p hp
        rcases List.mem_append.mp hp with hpin | hpin
        · exact hfresh u (by simp [hu]) p hpin
        · have : p = (t, f t) := by simpa using hpin
          rw [this]
          intro hteq
          have ht : t = u := hteq
          exact htnotin (ht ▸ hu)

/-- C5 (amended): for a duplicate-free ticker list the fetch stage yields
exactly one QuoteRecord entry and one news-list entry per ticker, in
ticker order, regardless of the per-ticker or batch outcomes; with
duplicated tickers the dict keys collapse to the distinct tickers. -/
theorem c5_one_record_per_distinct_ticker
    (batch_ok : Bool) (quote : String → Except String QuoteFields)
    (news : String → Except String (List NewsItem))
    (tickers : List String) (hnd : tickers.Nodup) :
    (fetch_stock_data batch_ok quote tickers).map Prod.fst = tickers
    ∧ (crawl_financial_news news tickers).map Prod.fst = tickers
    ∧ (fetch_stock_data batch_ok quote tickers).length = tickers.length
    ∧ (crawl_financial_news news tickers).length = tickers.length := by
  have h1 : (fetch_stock_data batch_ok quote tickers).map Prod.fst = tickers := by
    cases batch_ok with
    | true =>
        simpa using foldl_dict_insert_keys
          (fun t => match quote t with
            | Except.ok fields => StockRecord.valid fields
            | Except.error e => StockRecord.failed e)
          tickers [] hnd (by simp)
    | false =>
        simpa using foldl_dict_insert_keys
          (fun _ => StockRecord.failed ("Batch fetch failed"))
          tickers [] hnd (by simp)
  have h2 : (crawl_financial_news news tickers).map Prod.fst = tickers := by
    simpa using foldl_dict_insert_keys
      (fun t => match news t with
        | Except.ok items => items
        | Except.error _ => ([] : List NewsItem))
      tickers [] hnd (by simp)
  refine ⟨h1, h2, ?_, ?_⟩
  · rw [← List.length_map (fetch_stock_data batch_ok quote tickers) Prod.fst, h1]
  · rw [← List.length_map (crawl_financial_news news tickers) Prod.fst, h2]

theorem c5_one_record_per_distinct_ticker_witness :
    ([("AAPL"), ("GOOGL")] : List String).Nodup
    ∧ ((fetch_stock_data true (fun _ => Except.ok demo_fields) [("AAPL"), ("GOOGL")]).map Prod.fst
        = [("AAPL"), ("GOOGL")]
      ∧ (crawl_financial_news (fun _ => Except.ok []) [("AAPL"), ("GOOGL")]).map Prod.fst
        = [("AAPL"), ("GOOGL")]
      ∧ (fetch_stock_data true (fun _ => Except.ok demo_fields) [("AAPL"), ("GOOGL")]).length
        = ([("AAPL"), ("GOOGL")] : List String).length
      ∧ (crawl_financial_news (fun _ => Except.ok []) [("AAPL"), ("GOOGL")]).length
        = ([("AAPL"), ("GOOGL")] : List String).length) :=
  ⟨by decide,
   c5_one_record_per_distinct_ticker true (fun _ => Except.ok demo_fields)
     (fun _ => Except.ok []) [("AAPL"), ("GOOGL")] (by decide)⟩

/-- C3 counterexample: a document whose derived search text is empty (here
a failed-fetch stock dict, exactly what the coordinator passes for a
failed ticker) is not discarded: `index_documents` embeds it, stores it,
and builds the index, instead of dropping it — and an all-empty-text
batch therefore succeeds instead of failing with a
`NoIndexableDocumentsError` (no such error exists in the source). -/
theorem c3_counterexample_empty_text_document_is_indexed :
    document_to_text error_doc = ("")
    ∧ index_documents ok_embed [error_doc]
        = Except.ok ⟨[error_doc], some [[0]]⟩ := by
  constructor <;> rfl

lemma embed_all_length (embed : String → Except String (List ℚ)) :
    ∀ (docs : List Doc) (vs : List (List ℚ)),
      embed_all embed docs = Except.ok vs → vs.length = docs.length
  | [], vs, h => by
      simp only [embed_all] at h
      cases h
      rfl
  | d :: ds, vs, h => by
      simp only [embed_all] at h
      cases he : embed (document_to_text d) with
      | error e => rw [he] at h; cases h
      | ok v =>
          rw [he] at h
          cases ha : embed_all embed ds with
          | error e => rw [ha] at h; cases h
          | ok ws =>
              rw [ha] at h
              cases h
              simp [embed_all_length embed ds ws ha]

/-- C3 (amended): `index_documents` discards nothing — whenever every
embedding call succeeds it stores the complete input batch in its original
order and builds the index over all of it, and for the empty input batch
it fails with the `IndexError` of `np.array([]).shape[1]` rather than a
`NoIndexableDocumentsError`. -/
theorem c3_index_documents_stores_every_document
    (embed : String → Except String (List ℚ)) (documents : List Doc)
    (vs : List (List ℚ)) (h : embed_all embed documents = Except.ok vs) :
    index_documents embed documents
      = if documents = [] then Except.error PipeError.indexError
        else Except.ok ⟨documents, some vs⟩ := by
  have hlen : vs.length = documents.length := embed_all_length embed documents vs h
  unfold index_documents
  rw [h]
  by_cases hd : documents = []
  · have hv : vs = [] := by
      rw [← List.length_eq_zero, hlen, hd]
      rfl
    rw [if_pos hd, hv]
    rfl
  · have hv : vs.length ≠ 0 := by
      rw [hlen]
      exact fun h0 => hd (List.length_eq_zero.mp h0)
    rw [if_neg hd]
    simp [hv]

theorem c3_index_documents_stores_every_document_witness :
    embed_all ok_embed [error_doc] = Except.ok [[0]]
    ∧ index_documents ok_embed [error_doc]
        = if ([error_doc] : List Doc) = [] then Except.error PipeError.indexError
          else Except.ok ⟨[error_doc], some [[0]]⟩ :=
  ⟨rfl, c3_index_documents_stores_every_document ok_embed [error_doc] [[0]] rfl⟩

lemma length_ranked_ids (d : List ℚ) : (ranked_ids d).length = d.length := by
  rw [ranked_ids, ranked_pairs, List.length_map,
    (List.perm_insertionSort ascByDistance d.enum).length_eq, List.enum_length]

lemma ranked_ids_perm_range (d : List ℚ) :
    List.Perm (ranked_ids d) (List.range d.length) := by
  have h1 : List.Perm (ranked_pairs d) d.enum :=
    List.perm_insertionSort ascByDistance d.enum
  have h2 := h1.map Prod.fst
  rw [List.enum_map_fst] at h2
  exact h2

lemma filterMap_get_range {α : Type} :
    ∀ l : List α, (List.range l.length).filterMap (fun i => l.get? i) = l
  | [] => rfl
  | a :: l => by
      rw [List.length_cons, List.range_succ_eq_map, List.filterMap_cons, List.filterMap_map]
      have hc : ((fun i => (a :: l).get? i) ∘ Nat.succ) = fun i => l.get? i := rfl
      simp only [List.get?_cons_zero, hc, filterMap_get_range l]

lemma filterMap_replicate_some {α β : Type} (f : α → Option β) (a : α) (b : β)
    (h : f a = some b) : ∀ m, (List.replicate m a).filterMap f = List.replicate m b
  | 0 => rfl
  | m + 1 => by
      rw [List.replicate_succ, List.filterMap_cons, h, List.replicate_succ,
        filterMap_replicate_some f a b h m]

/-- C2 (amended): when the index holds one vector per stored document and
the store is nonempty, a search with `k ≥ n` (`n` the store size) returns
the full store ranked ascending by distance followed by `k − n` copies of
the **last stored** document: the `k − n` FAISS padding ids `−1` pass the
`idx < len(document_store)` check and Python's negative indexing maps each
of them to the last document.  In particular for `k = n` the result is
exactly the full store, a permutation of it sorted by distance, with no
duplicates and no out-of-range ids. -/
theorem c2_search_with_k_at_least_store_size
    (store : List Doc) (vecs : List (List ℚ)) (query_embedding : List ℚ)
    (k : ℕ) (distances : List ℚ)
    (hd : distances = vecs.map (fun v => sqL2 query_embedding v))
    (hlen : vecs.length = store.length)
    (hne : store ≠ [])
    (hk : store.length ≤ k) :
    semantic_search ⟨store, some vecs⟩ (fun _ => Except.ok query_embedding) ("query") k
        = Except.ok ((ranked_ids distances).filterMap (fun i => store.get? i)
            ++ List.replicate (k - store.length) (store.getLast hne))
    ∧ List.Perm ((ranked_ids distances).filterMap (fun i => store.get? i)) store
    ∧ List.Sorted (fun a b : ℚ => a ≤ b) ((ranked_pairs distances).map Prod.snd) := by
  have hdl : distances.length = store.length := by
    rw [hd, List.length_map, hlen]
  have hperm : List.Perm (ranked_ids distances) (List.range store.length) := by
    rw [← hdl]
    exact ranked_ids_perm_range distances
  have hmem : ∀ i ∈ ranked_ids distances, i < store.length := fun i hi =>
    List.mem_range.mp (hperm.mem_iff.mp hi)
  have hnlen : 0 < store.length := List.length_pos.mpr hne
  have hperm_docs : List.Perm ((ranked_ids distances).filterMap (fun i => store.get? i)) store := by
    have h1 := hperm.filterMap (fun i => store.get? i)
    rw [filterMap_get_range store] at h1
    exact h1
  refine ⟨?_, hperm_docs, ?_⟩
  · show Except.ok _ = _
    congr 1
    rw [← hd, faiss_search_ids,
      List.take_of_length_le (by rw [length_ranked_ids, hdl]; exact hk),
      List.filterMap_append, List.filterMap_map, hdl]
    congr 1
    · apply List.filterMap_congr
      intro i hi
      have hilt : i < store.length := hmem i hi
      have hcond : ((Int.ofNat i) : ℤ) < (store.length : ℤ) := by
        rw [Int.ofNat_eq_coe]
        exact_mod_cast hilt
      show (if (Int.ofNat i : ℤ) < (store.length : ℤ) then pyGet store (Int.ofNat i) else none)
          = store.get? i
      rw [if_pos hcond, pyGet,
        if_pos (by rw [Int.ofNat_eq_coe]; exact_mod_cast Nat.zero_le i)]
      rfl
    · apply filterMap_replicate_some
      show (if (-1 : ℤ) < (store.length : ℤ) then pyGet store (-1) else none)
          = some (store.getLast hne)
      have hcond : (-1 : ℤ) < (store.length : ℤ) := by omega
      rw [if_pos hcond, pyGet, if_neg (by norm_num)]
      have harg : (((store.length : ℤ) + (-1)).toNat) = store.length - 1 := by omega
      rw [harg, List.get?_eq_get (Nat.sub_lt hnlen Nat.one_pos), List.getLast_eq_getElem]
      rfl
  · have hs : List.Sorted ascByDistance (ranked_pairs distances) :=
      List.sorted_insertionSort ascByDistance distances.enum
    exact List.Pairwise.map Prod.snd (fun a b hab => hab) hs

/-- A news document used in the retrieval examples. -/
def doc_one : Doc := Doc.news ⟨("AAPL beats earnings"), ("l1"), ("s1")⟩

/-- A second news document used in the retrieval examples. -/
def doc_two : Doc := Doc.news ⟨("MSFT dips"), ("l2"), ("s2")⟩

/-- C2 counterexample: on a store of one document, a search with
`k = 3 ≥ 1` returns that document three times — the two FAISS padding ids
`-1` are out of the store's bounds but are **not** skipped (the source
checks only `idx < len(document_store)`), each selecting the last stored
document through Python's negative indexing — instead of returning
exactly the full store without duplicates. -/
theorem c2_counterexample_padding_duplicates_last_document :
    semantic_search ⟨[doc_one], some [[0]]⟩ ok_embed ("earnings") 3
        = Except.ok [doc_one, doc_one, doc_one]
    ∧ ¬ ([doc_one, doc_one, doc_one] : List Doc).Nodup := by
  constructor
  · rfl
  · decide

theorem c2_search_with_k_at_least_store_size_witness :
    (([9, 1] : List ℚ) = [[(3 : ℚ)], [1]].map (fun v => sqL2 [0] v)
      ∧ ([[(3 : ℚ)], [1]] : List (List ℚ)).length = ([doc_one, doc_two] : List Doc).length
      ∧ ([doc_one, doc_two] : List Doc) ≠ []
      ∧ ([doc_one, doc_two] : List Doc).length ≤ 2)
    ∧ (semantic_search ⟨[doc_one, doc_two], some [[3], [1]]⟩
          (fun _ => Except.ok [0]) ("query") 2
        = Except.ok [doc_two, doc_one]
      ∧ List.Perm ((ranked_ids [9, 1]).filterMap
          (fun i => ([doc_one, doc_two] : List Doc).get? i)) [doc_one, doc_two]
      ∧ List.Sorted (fun a b : ℚ => a ≤ b) ((ranked_pairs [9, 1]).map Prod.snd)) := by
  have hd : ([9, 1] : List ℚ) = [[(3 : ℚ)], [1]].map (fun v => sqL2 [0] v) := by
    simp [sqL2]
    norm_num
  refine ⟨⟨hd, rfl, by decide, by decide⟩, ?_⟩
  obtain ⟨h1, h2, h3⟩ := c2_search_with_k_at_least_store_size
    [doc_one, doc_two] [[3], [1]] [0] 2 [9, 1] hd rfl (by decide) (by decide)
  refine ⟨?_, h2, h3⟩
  rw [h1]
  decide

lemma extract_tickers_nonempty (response : Except String String) :
    extract_tickers_with_gemini response ≠ [] := by
  cases response with
  | error e => simp [extract_tickers_with_gemini, fallback_tickers]
  | ok text =>
      simp only [extract_tickers_with_gemini]
      split
      · simp [fallback_tickers]
      · next h => exact h

lemma dict_insert_ne_nil {α : Type} (key : String) (value : α) (d : List (String × α)) :
    dict_insert key value d ≠ [] := by
  rw [dict_insert]
  split
  · next h =>
      intro h0
      rw [List.map_eq_nil_iff] at h0
      rw [h0] at h
      simp at h
  · simp

lemma foldl_dict_insert_ne_nil {α : Type} (f : String → α) :
    ∀ (l : List String) (acc : List (String × α)), acc ≠ [] →
      l.foldl (fun d t => dict_insert t (f t) d) acc ≠ []
  | [], acc, h => h
  | t :: ts, acc, h => by
      rw [List.foldl_cons]
      exact foldl_dict_insert_ne_nil f ts _ (dict_insert_ne_nil t (f t) acc)

lemma fetch_stock_data_ne_nil (batch_ok : Bool) (quote : String → Except String QuoteFields)
    (tickers : List String) (h : tickers ≠ []) :
    fetch_stock_data batch_ok quote tickers ≠ [] := by
  obtain ⟨t, ts, rfl⟩ := List.exists_cons_of_ne_nil h
  cases batch_ok with
  | true =>
      rw [fetch_stock_data, if_pos rfl, List.foldl_cons]
      exact foldl_dict_insert_ne_nil _ ts _ (dict_insert_ne_nil _ _ _)
  | false =>
      rw [fetch_stock_data, if_neg (by simp), List.foldl_cons]
      exact foldl_dict_insert_ne_nil _ ts _ (dict_insert_ne_nil _ _ _)

lemma embed_all_ok (embed : String → Except String (List ℚ))
    (h : ∀ s, exceptOk (embed s) = true) :
    ∀ docs : List Doc, ∃ vs, embed_all embed docs = Except.ok vs
  | [] => ⟨[], rfl⟩
  | d :: ds => by
      obtain ⟨vs, hvs⟩ := embed_all_ok embed h ds
      cases he : embed (document_to_text d) with
      | error e =>
          have hh := h (document_to_text d)
          rw [he] at hh
          simp [exceptOk] at hh
      | ok v =>
          refine ⟨v :: vs, ?_⟩
          simp only [embed_all, he, hvs]

lemma combine_two_sources (a b : List Doc) :
    combine_document_sources [a, b] = a ++ b := by
  simp [combine_document_sources]

lemma snd_of_mem_dict_insert {α : Type} (key : String) (value : α)
    (d : List (String × α)) :
    ∀ p ∈ dict_insert key value d, p.2 = value ∨ ∃ p0 ∈ d, p.2 = p0.2 := by
  intro p hp
  rw [dict_insert] at hp
  split at hp
  · rcases List.mem_map.mp hp with ⟨p0, hp0, heq⟩
    by_cases hk : (p0.1 == key) = true
    · rw [if_pos hk] at heq
      left
      rw [← heq]
    · rw [if_neg hk] at heq
      exact Or.inr ⟨p0, hp0, by rw [← heq]⟩
  · rcases List.mem_append.mp hp with hin | hin
    · exact Or.inr ⟨p, hin, rfl⟩
    · left
      have hpv : p = (key, value) := by simpa using hin
      rw [hpv]

lemma snd_of_mem_foldl_dict_insert {α : Type} (f : String → α) :
    ∀ (l : List String) (acc : List (String × α)) (p : String × α),
      p ∈ l.foldl (fun d t => dict_insert t (f t) d) acc →
      (∃ p0 ∈ acc, p.2 = p0.2) ∨ ∃ t, p.2 = f t
  | [], _, p, hp => Or.inl ⟨p, hp, rfl⟩
  | t :: ts, acc, p, hp => by
      rw [List.foldl_cons] at hp
      rcases snd_of_mem_foldl_dict_insert f ts _ p hp with ⟨p0, hp0, hs⟩ | ⟨u, hu⟩
      · rcases snd_of_mem_dict_insert t (f t) acc p0 hp0 with hv | ⟨p1, hp1, hs1⟩
        · exact Or.inr ⟨t, by rw [hs, hv]⟩
        · exact Or.inl ⟨p1, hp1, by rw [hs, hs1]⟩
      · exact Or.inr ⟨u, hu⟩

lemma fetch_stock_data_valid_record_cap (batch_ok : Bool)
    (quote : String → Except String QuoteFields) (tickers : List String)
    (hcap : ∀ (t : String) (q : QuoteFields), quote t = Except.ok q → q.market_cap.isSome = true) :
    ∀ p ∈ fetch_stock_data batch_ok quote tickers, ∀ q : QuoteFields,
      p.2 = StockRecord.valid q → q.market_cap.isSome = true := by
  intro p hp q hq
  cases batch_ok with
  | true =>
      rw [fetch_stock_data, if_pos rfl] at hp
      rcases snd_of_mem_foldl_dict_insert _ tickers [] p hp with ⟨p0, hp0, _⟩ | ⟨t, ht⟩
      · simp at hp0
      · rw [hq] at ht
        cases hqt : quote t with
        | ok fields =>
            rw [hqt] at ht
            simp only [StockRecord.valid.injEq] at ht
            rw [ht]
            exact hcap t fields hqt
        | error e =>
            rw [hqt] at ht
            simp at ht
  | false =>
      rw [fetch_stock_data, if_neg (by simp)] at hp
      rcases snd_of_mem_foldl_dict_insert _ tickers [] p hp with ⟨p0, hp0, _⟩ | ⟨t, ht⟩
      · simp at hp0
      · rw [hq] at ht
        simp at ht

/-- C1 (amended): failures of the ticker-extraction, quote, news,
narrative and voice collaborators are all absorbed into sentinel values —
for every behaviour of those collaborators, as long as the embedding
calls made during `MERGE_AND_INDEX` and `SEMANTIC_SEARCH` succeed and
every valid quote record carries a `market_cap` value (so the narrative
prompt preparation cannot raise on its `N/A` fallback),
`process_query` returns a well-formed result and raises nothing. -/
theorem c1_failures_absorbed_outside_uncaught_paths
    (c : Collaborators) (query : String) (h : embed_total c)
    (hcap : quotes_have_market_cap c) :
    exceptOk (process_query c query) = true := by
  unfold process_query
  set tickers := extract_tickers_with_gemini c.gemini_extract with hTick
  set sd := fetch_stock_data c.batch_ok c.quote tickers with hSd
  set nd := crawl_financial_news c.news tickers with hNd
  set combined := combine_document_sources
    [sd.map (fun p => Doc.stockDict p.2), ((nd.map Prod.snd).flatten).map Doc.news] with hC
  have htick : tickers ≠ [] := by
    rw [hTick]
    exact extract_tickers_nonempty c.gemini_extract
  have hsd : sd ≠ [] := by
    rw [hSd]
    exact fetch_stock_data_ne_nil c.batch_ok c.quote tickers htick
  have hcomb : combined ≠ [] := by
    rw [hC, combine_two_sources]
    intro h0
    rcases List.append_eq_nil.mp h0 with ⟨h1, _⟩
    exact hsd (List.map_eq_nil_iff.mp h1)
  obtain ⟨vs, hvs⟩ := embed_all_ok c.embed h combined
  have hvlen : vs.length ≠ 0 := by
    rw [embed_all_length c.embed combined vs hvs]
    exact fun h0 => hcomb (List.length_eq_zero.mp h0)
  have hidx : index_documents c.embed combined = Except.ok ⟨combined, some vs⟩ := by
    unfold index_documents
    rw [hvs]
    simp [hvlen]
  obtain ⟨qe, hqe⟩ : ∃ qe, c.embed query = Except.ok qe := by
    cases hq0 : c.embed query with
    | error e =>
        have hh := h query
        rw [hq0] at hh
        simp [exceptOk] at hh
    | ok v => exact ⟨v, rfl⟩
  have hformat : stocks_summary_raises sd = false := by
    rw [stocks_summary_raises, List.any_eq_false]
    intro p hp
    have hpsd : p ∈ sd := (List.mem_filter.mp hp).1
    rw [hSd] at hpsd
    cases hrec : p.2 with
    | failed m => simp [hrec]
    | valid q =>
        have hqc := fetch_stock_data_valid_record_cap c.batch_ok c.quote tickers hcap
          p hpsd q hrec
        rcases Option.isSome_iff_exists.mp hqc with ⟨x, hx⟩
        simp [hrec, hx]
  simp only [hidx, semantic_search, hqe, hformat, Bool.false_eq_true, if_false, exceptOk]

/-- Collaborators that are all healthy except that the quote provider
delivers valid records without a `market_cap` key. -/
def missing_cap_collaborators : Collaborators :=
  { ok_collaborators with quote := fun _ => Except.ok blank_fields }

/-- C1 counterexample: two post-construction failures cross the
top-level boundary of `process_query` uncaught, contradicting the claim
that only a construction-time ConfigurationError can: with every
collaborator healthy except the embedding model, the exception raised
inside `index_documents` escapes (there is no `try`/`except` around the
`MERGE_AND_INDEX` or `SEMANTIC_SEARCH` stages); and with every
collaborator healthy but the quote provider returning a valid record
without a `market_cap` key, the narrative prompt preparation raises
`ValueError` formatting its `N/A` default with the thousands separator,
outside the stage's `try`. -/
theorem c1_counterexample_uncaught_failures_escape :
    process_query embed_down_collaborators ("how is AAPL doing")
      = Except.error (PipeError.collaborator ("embedding backend unavailable"))
    ∧ process_query missing_cap_collaborators ("how is AAPL doing")
      = Except.error PipeError.formatError := by
  constructor <;> rfl

theorem c1_failures_absorbed_outside_uncaught_paths_witness :
    embed_total ok_collaborators
    ∧ quotes_have_market_cap ok_collaborators
    ∧ exceptOk (process_query ok_collaborators ("how are tech stocks doing")) = true :=
  ⟨fun _ => rfl,
   fun _ q hq => by injection hq with h1; rw [← h1]; rfl,
   c1_failures_absorbed_outside_uncaught_paths ok_collaborators
     ("how are tech stocks doing") (fun _ => rfl)
     (fun _ q hq => by injection hq with h1; rw [← h1]; rfl)⟩
